import Mathlib

/-!
Verification development for the NFC-LN data-plane stack.

The Python sources are embedded shallowly:

* Python `str` values are `List Char`; Python `bytes` are `List Nat`
  (each element a byte value `< 256`); Python's exception-based failure
  is `Except String` / `Option`.
* The `bech32` pip package the sources import (`import bech32`, the
  BIP-173 reference implementation, pypi package `bech32`) is embedded
  concretely below, including its 90-character ceiling in
  `bech32_decode`, since `src/lnbits/lnurl.py` delegates the whole
  checksummed codec to it.
* The `ndeflib` record codec (`ndef.message_decoder`) is an external
  collaborator touched only at its boundary, so it is passed to the
  NDEF-layer functions as an explicit parameter
  `dec : List Nat → Except String (List NdefRec)`.
* Hardware (the PN532 port) is likewise passed in as functions:
  a page-read map `Nat → Option (List Nat)` and oracles for the
  service layer.
* Python floats carrying wall-clock times are embedded as exact
  rationals `ℚ` (only subtraction and comparison are performed on
  them).

Case conversion: the strings the code upper/lower-cases are ASCII
(bech32 alphabets, URL prefixes), where Lean's ASCII-only
`Char.toLower`/`Char.toUpper` agree with Python's `str.lower`/`str.upper`.
-/

/-- Python `str.lower` (ASCII range, see header note). -/
def pyLower (s : List Char) : List Char := s.map Char.toLower

/-- Python `str.upper` (ASCII range, see header note). -/
def pyUpper (s : List Char) : List Char := s.map Char.toUpper

/-! ### The bech32 library (pypi `bech32`, BIP-173 reference implementation)

`src/lnbits/lnurl.py` and `src/nfc/ndef.py` run `import bech32` and call
`bech32.convertbits`, `bech32.bech32_encode` and `bech32.bech32_decode`.
The definitions below transcribe that library. -/

/-- The bech32 data alphabet `CHARSET`. -/
def bech32Charset : List Char := "qpzry9x8gf2tvdw0s3jn54khce6mua7l".toList

/-- The five generator constants of the bech32 checksum. -/
def bech32Generator : List Nat :=
  [0x3b6a57b2, 0x26508e6d, 0x1ea119fa, 0x3d4233dd, 0x2a1462b3]

/-- One iteration of the `bech32_polymod` loop: shift the state five bits,
mix in the next value, and fold in the generators selected by the former
top bits. -/
def bech32PolymodStep (chk v : Nat) : Nat :=
  let top := chk >>> 25
  let base := (((chk &&& 0x1ffffff) <<< 5) ^^^ v)
  (List.range 5).foldl
    (fun c i => if (top >>> i) &&& 1 = 1 then c ^^^ bech32Generator.getD i 0 else c) base

/-- `bech32_polymod(values)`: internal checksum computation. -/
def bech32Polymod (values : List Nat) : Nat := values.foldl bech32PolymodStep 1

/-- `bech32_hrp_expand(hrp)`: expand the human-readable part into values
for checksum computation. -/
def bech32HrpExpand (hrp : List Char) : List Nat :=
  hrp.map (fun c => c.toNat >>> 5) ++ [0] ++ hrp.map (fun c => c.toNat &&& 31)

/-- `bech32_verify_checksum(hrp, data)`. -/
def bech32VerifyChecksum (hrp : List Char) (data : List Nat) : Bool :=
  bech32Polymod (bech32HrpExpand hrp ++ data) = 1

/-- `bech32_create_checksum(hrp, data)`: the six 5-bit checksum words. -/
def bech32CreateChecksum (hrp : List Char) (data : List Nat) : List Nat :=
  let values := bech32HrpExpand hrp ++ data
  let pm := bech32Polymod (values ++ [0, 0, 0, 0, 0, 0]) ^^^ 1
  (List.range 6).map (fun i => (pm >>> (5 * (5 - i))) &&& 31)

/-- `bech32_encode(hrp, data)`: hrp, separator `'1'`, then data and
checksum rendered in the bech32 alphabet.  (The library function never
returns `None`; the caller's `if lnurl is None` guard is dead code.) -/
def bech32_encode (hrp : List Char) (data : List Nat) : List Char :=
  hrp ++ '1' :: (data ++ bech32CreateChecksum hrp data).map (fun d => bech32Charset.getD d 'q')

/-- Python `str.rfind` specialised to a single character: the index of the
last occurrence, or `none` where Python returns `-1`. -/
def rfindChar (c : Char) (s : List Char) : Option Nat :=
  match List.findIdx? (fun x => x == c) s.reverse with
  | none => none
  | some j => some (s.length - 1 - j)

/-- `bech32_decode(bech)`: validate a bech32 string and return
`(hrp, data)` without the six checksum words, or `none` on any failure
(character out of the printable range, mixed case, missing or misplaced
separator, a string longer than 90 characters, a character outside the
alphabet, or a checksum mismatch). -/
def bech32_decode (bech : List Char) : Option (List Char × List Nat) :=
  if bech.any (fun c => c.toNat < 33 || 126 < c.toNat) then none
  else if (pyLower bech != bech) && (pyUpper bech != bech) then none
  else
    let b := pyLower bech
    match rfindChar '1' b with
    | none => none
    | some pos =>
      if pos < 1 || pos + 7 > b.length || b.length > 90 then none
      else if !((b.drop (pos + 1)).all (fun c => bech32Charset.contains c)) then none
      else
        let hrp := b.take pos
        let data := (b.drop (pos + 1)).map (fun c => bech32Charset.indexOf c)
        if bech32VerifyChecksum hrp data then some (hrp, data.take (data.length - 6))
        else none

/-- The inner `while bits >= tobits` loop of `convertbits`, emitting the
buffered groups high-first.  `fuel` starts at `bits`, which bounds the
trip count since `tobits ≥ 1` in every call site. -/
def convertFlush (tobits maxv acc : Nat) : Nat → Nat → List Nat × Nat
  | bits, 0 => ([], bits)
  | bits, fuel + 1 =>
    if tobits ≤ bits then
      let bits2 := bits - tobits
      let r := convertFlush tobits maxv acc bits2 fuel
      (((acc >>> bits2) &&& maxv) :: r.1, r.2)
    else ([], bits)

/-- The per-value fold of `convertbits`: reject an oversized value, mix it
into the accumulator, and flush complete output groups. -/
def convertbitsGo (frombits tobits maxAcc maxv : Nat) :
    List Nat → Nat → Nat → List Nat → Option (List Nat × Nat × Nat)
  | [], acc, bits, ret => some (ret, acc, bits)
  | v :: rest, acc, bits, ret =>
    if v >>> frombits ≠ 0 then none
    else
      let acc2 := ((acc <<< frombits) ||| v) &&& maxAcc
      let bits2 := bits + frombits
      let r := convertFlush tobits maxv acc2 bits2 bits2
      convertbitsGo frombits tobits maxAcc maxv rest acc2 r.2 (ret ++ r.1)

/-- `convertbits(data, frombits, tobits, pad)`: general power-of-2 base
conversion, `none` on failure. -/
def convertbits (data : List Nat) (frombits tobits : Nat) (pad : Bool) : Option (List Nat) :=
  let maxv := (1 <<< tobits) - 1
  let maxAcc := (1 <<< (frombits + tobits - 1)) - 1
  match convertbitsGo frombits tobits maxAcc maxv data 0 0 [] with
  | none => none
  | some (ret, acc, bits) =>
    if pad then
      if bits ≠ 0 then some (ret ++ [(acc <<< (tobits - bits)) &&& maxv]) else some ret
    else if frombits ≤ bits || ((acc <<< (tobits - bits)) &&& maxv) ≠ 0 then none
    else some ret

/-! ### UTF-8 (Python `str.encode('utf-8')` / `bytes.decode('utf-8')`) -/

/-- UTF-8 encoding of one code point. -/
def utf8EncodeChar (c : Char) : List Nat :=
  let n := c.toNat
  if n < 0x80 then [n]
  else if n < 0x800 then [0xc0 ||| (n >>> 6), 0x80 ||| (n &&& 0x3f)]
  else if n < 0x10000 then
    [0xe0 ||| (n >>> 12), 0x80 ||| ((n >>> 6) &&& 0x3f), 0x80 ||| (n &&& 0x3f)]
  else
    [0xf0 ||| (n >>> 18), 0x80 ||| ((n >>> 12) &&& 0x3f),
     0x80 ||| ((n >>> 6) &&& 0x3f), 0x80 ||| (n &&& 0x3f)]

/-- Python `str.encode('utf-8')`. -/
def utf8Encode (s : List Char) : List Nat := (s.map utf8EncodeChar).flatten

/-- Python `bytes.decode('utf-8')` (strict): rejects truncated sequences,
stray continuation bytes, overlong forms, surrogates and values past
`U+10FFFF`; `none` models `UnicodeDecodeError`. -/
def utf8Decode : List Nat → Option (List Char)
  | [] => some []
  | b :: rest =>
    if b < 0x80 then (utf8Decode rest).map (fun cs => Char.ofNat b :: cs)
    else if 0xc2 ≤ b && b ≤ 0xdf then
      match rest with
      | b2 :: rest2 =>
        if 0x80 ≤ b2 && b2 ≤ 0xbf then
          (utf8Decode rest2).map (fun cs => Char.ofNat (((b - 0xc0) <<< 6) ||| (b2 - 0x80)) :: cs)
        else none
      | [] => none
    else if 0xe0 ≤ b && b ≤ 0xef then
      match rest with
      | b2 :: b3 :: rest3 =>
        let lo2 := if b = 0xe0 then 0xa0 else 0x80
        let hi2 := if b = 0xed then 0x9f else 0xbf
        if (lo2 ≤ b2 && b2 ≤ hi2) && (0x80 ≤ b3 && b3 ≤ 0xbf) then
          (utf8Decode rest3).map (fun cs =>
            Char.ofNat ((((b - 0xe0) <<< 12) ||| ((b2 - 0x80) <<< 6)) ||| (b3 - 0x80)) :: cs)
        else none
      | _ => none
    else if 0xf0 ≤ b && b ≤ 0xf4 then
      match rest with
      | b2 :: b3 :: b4 :: rest4 =>
        let lo2 := if b = 0xf0 then 0x90 else 0x80
        let hi2 := if b = 0xf4 then 0x8f else 0xbf
        if (lo2 ≤ b2 && b2 ≤ hi2) && (0x80 ≤ b3 && b3 ≤ 0xbf) && (0x80 ≤ b4 && b4 ≤ 0xbf) then
          (utf8Decode rest4).map (fun cs =>
            Char.ofNat (((((b - 0xf0) <<< 18) ||| ((b2 - 0x80) <<< 12)) |||
              ((b3 - 0x80) <<< 6)) ||| (b4 - 0x80)) :: cs)
        else none
      | _ => none
    else none

/-! ### LNURLHandler (`src/lnbits/lnurl.py`) -/

/-- The LNURL human-readable part. -/
def lnurlHrp : List Char := "lnurl".toList

/-- The `"http://"` scheme marker. -/
def litHttp : List Char := "http://".toList

/-- The `"https://"` scheme marker. -/
def litHttps : List Char := "https://".toList

/-- The `"lightning:"` URI marker. -/
def litLightning : List Char := "lightning:".toList

/-- The word `"lightning"`. -/
def litLightningWord : List Char := "lightning".toList

/-- The upper-case marker `"LNURL"` the encoded form starts with. -/
def litLNURL : List Char := "LNURL".toList

/-- Error text of `ValueError("Invalid bech32 LNURL")`. -/
def errInvalidBech32 : String := "Invalid bech32 LNURL"

/-- Error text of `ValueError` on a wrong human-readable part. -/
def errBadHrp : String := "Invalid LNURL prefix"

/-- Error text of `ValueError("Failed to convert bech32 data")`. -/
def errConvertBack : String := "Failed to convert bech32 data"

/-- Error text of a `UnicodeDecodeError` from `bytes.decode('utf-8')`. -/
def errUtf8 : String := "invalid utf-8"

/-- Error text of `ValueError("Failed to convert URL to bech32 data")`. -/
def errConvertTo : String := "Failed to convert URL to bech32 data"

/-- Wrapper prefixed by `LNURLHandler.decode` when re-raising as `LNURLError`. -/
def errDecodeWrap : String := "Failed to decode LNURL: "

/-- Wrapper prefixed by `LNURLHandler.encode` when re-raising as `LNURLError`. -/
def errEncodeWrap : String := "Failed to encode LNURL: "

/-- `LNURLHandler._encode_bech32(url)`: UTF-8 bytes, 8→5-bit repacking
with padding, bech32 encoding under hrp `lnurl`, upper-cased. -/
def LNURLHandler.encodeBech32 (url : List Char) : Except String (List Char) :=
  match convertbits (utf8Encode url) 8 5 true with
  | none => Except.error errConvertTo
  | some data => Except.ok (pyUpper (bech32_encode lnurlHrp data))

/-- `LNURLHandler.encode(url)`: pass-through when `use_bech32` is off,
checksummed bech32 form otherwise; failures re-raised as `LNURLError`. -/
def LNURLHandler.encode (useBech32 : Bool) (url : List Char) : Except String (List Char) :=
  if useBech32 then
    match LNURLHandler.encodeBech32 url with
    | Except.error e => Except.error (errEncodeWrap ++ e)
    | Except.ok r => Except.ok r
  else Except.ok url

/-- `LNURLHandler._decode_bech32(lnurl)`: bech32-decode the lower-cased
input, require hrp `lnurl`, repack 5→8 bits without padding, decode UTF-8. -/
def LNURLHandler.decodeBech32 (lnurl : List Char) : Except String (List Char) :=
  match bech32_decode (pyLower lnurl) with
  | none => Except.error errInvalidBech32
  | some (hrp, data) =>
    if hrp ≠ lnurlHrp then Except.error errBadHrp
    else match convertbits data 5 8 false with
      | none => Except.error errConvertBack
      | some bs =>
        match utf8Decode bs with
        | none => Except.error errUtf8
        | some url => Except.ok url

/-- The `lightning:` stripping step of `LNURLHandler.decode`: drop the
first ten characters when the lower-cased input starts with `lightning:`. -/
def stripLightning (s : List Char) : List Char :=
  if litLightning.isPrefixOf (pyLower s) then s.drop 10 else s

/-- `LNURLHandler.decode(lnurl)`: return `http(s)://` inputs unchanged,
strip an optional `lightning:` marker, bech32-decode a remainder that
starts (case-insensitively) with `lnurl`, and otherwise return the
remainder as-is; any inner failure is re-raised as `LNURLError`. -/
def LNURLHandler.decode (s : List Char) : Except String (List Char) :=
  if litHttp.isPrefixOf s || litHttps.isPrefixOf s then Except.ok s
  else
    let r := stripLightning s
    if lnurlHrp.isPrefixOf (pyLower r) then
      match LNURLHandler.decodeBech32 r with
      | Except.error e => Except.error (errDecodeWrap ++ e)
      | Except.ok url => Except.ok url
    else Except.ok r

/-- Characters `urllib.parse` accepts inside a scheme. -/
def schemeChars : List Char :=
  "abcdefghijklmnopqrstuvwxyzABCDEFGHIJKLMNOPQRSTUVWXYZ0123456789+-.".toList

/-- A light embedding of `urllib.parse.urlsplit`'s scheme detection:
split `scheme:rest` when the part before the first `':'` is a non-empty
run of scheme characters starting with a letter; otherwise no scheme. -/
def urlSchemeSplit (url : List Char) : List Char × List Char :=
  match List.findIdx? (fun x => x == ':') url with
  | none => ([], url)
  | some i =>
    if 0 < i && (url.take i).all (fun c => schemeChars.contains c)
        && (url.headD ' ').isAlpha then
      (pyLower (url.take i), url.drop (i + 1))
    else ([], url)

/-- A light embedding of `urllib.parse.urlsplit`'s netloc: the run after
a leading `//` up to the next `/`, `?` or `#`. -/
def urlNetloc (rest : List Char) : List Char :=
  if (['/', '/'] : List Char).isPrefixOf rest then
    (rest.drop 2).takeWhile (fun c => c ≠ '/' && c ≠ '?' && c ≠ '#')
  else []

/-- `LNURLHandler.validate(lnurl)`: decoding succeeds and the URL has a
non-empty scheme and netloc. -/
def LNURLHandler.validate (s : List Char) : Bool :=
  match LNURLHandler.decode s with
  | Except.error _ => false
  | Except.ok url =>
    let p := urlSchemeSplit url
    (p.1 != []) && (urlNetloc p.2 != [])

/-- Python slicing `s[i:]` for an arbitrary `int` index. -/
def pySliceFrom (s : List Char) (i : Int) : List Char :=
  if 0 ≤ i then s.drop i.toNat else s.drop ((s.length : Int) + i).toNat

/-- Python slicing `s[:i]` for an arbitrary `int` index. -/
def pySliceTo (s : List Char) (i : Int) : List Char :=
  if 0 ≤ i then s.take i.toNat else s.take ((s.length : Int) + i).toNat

/-- The ellipsis marker of `format_for_display`. -/
def ellipsisMark : List Char := "...".toList

/-- `LNURLHandler.format_for_display(lnurl, max_length)`: return short
strings unchanged, otherwise `lnurl[:half] + "..." + lnurl[-half:]` with
`half = (max_length - 3) // 2` (Python floor division and slicing). -/
def LNURLHandler.format_for_display (s : List Char) (maxLength : Int) : List Char :=
  if (s.length : Int) ≤ maxLength then s
  else
    let half : Int := (maxLength - 3).fdiv 2
    pySliceTo s half ++ ellipsisMark ++ pySliceFrom s (-half)

/-! ### NDEFHandler (`src/nfc/ndef.py`) -/

/-- A decoded NDEF record as the sources consume it: the code only ever
distinguishes a URI record (`ndef.UriRecord`, carrying its `uri` string)
from any other record type. -/
inductive NdefRec where
  | uriRec (uri : List Char)
  | otherRec
deriving DecidableEq

/-- Error text of `NDEFError("No NDEF TLV found in data")`. -/
def errNoTlv : String := "No NDEF TLV found in data"

/-- Wrapper prefixed by `parse_message` when re-raising as `NDEFError`. -/
def errParseWrap : String := "Failed to parse NDEF message: "

/-- The scanning loop of `NDEFHandler._extract_ndef_tlv`, transcribed from
the index form (`i`, `data[i]`, `i += 2 + tlv_length`) to the equivalent
suffix form: skip a `0x00` padding byte (`i += 1`), stop at a `0xFE`
terminator, stop at a buffer that ends before a length byte, return the
value of the first `0x03` entry whose declared length fits
(`i + 2 + tlv_length <= len(data)`), and otherwise step over the entry
(`i += 2 + tlv_length`, which on a truncated entry moves `i` past the end
so the loop exits).  `fuel` starts at the buffer length, which bounds the
trip count since every step consumes at least one byte. -/
def extractGo : Nat → List Nat → Option (List Nat)
  | 0, _ => none
  | _ + 1, [] => none
  | fuel + 1, t :: rest =>
    if t = 0x00 then extractGo fuel rest
    else if t = 0xfe then none
    else match rest with
      | [] => none
      | len :: rest2 =>
        if t = 0x03 ∧ len ≤ rest2.length then some (rest2.take len)
        else extractGo fuel (rest2.drop len)

/-- `NDEFHandler._extract_ndef_tlv(data)`. -/
def extract_ndef_tlv (data : List Nat) : Option (List Nat) :=
  extractGo data.length data

/-- `NDEFHandler.parse_message(data)`: extract the NDEF TLV (an absent or
empty TLV raises `NDEFError("No NDEF TLV found in data")`) and decode the
records with the ndeflib `message_decoder`, passed in as `dec`. -/
def parse_message (dec : List Nat → Except String (List NdefRec)) (data : List Nat) :
    Except String (List NdefRec) :=
  match extract_ndef_tlv data with
  | none => Except.error errNoTlv
  | some tlv =>
    if tlv = [] then Except.error errNoTlv
    else match dec tlv with
      | Except.error e => Except.error (errParseWrap ++ e)
      | Except.ok records => Except.ok records

/-- The record scan inside `NDEFHandler.extract_uri`: the first
`ndef.UriRecord`'s `uri`, if any. -/
def firstUri : List NdefRec → Option (List Char)
  | [] => none
  | NdefRec.uriRec u :: _ => some u
  | NdefRec.otherRec :: rest => firstUri rest

/-- `NDEFHandler.extract_uri(data)`: the first URI record's string, or
`None`; every exception (including a parse failure) is caught and also
yields `None`. -/
def extract_uri (dec : List Nat → Except String (List NdefRec)) (data : List Nat) :
    Option (List Char) :=
  match parse_message dec data with
  | Except.error _ => none
  | Except.ok records => firstUri records

/-- `NDEFHandler._encode_lnurl(url)`: UTF-8 bytes, 8→5-bit repacking with
padding, bech32 encoding under hrp `lnurl`, upper-cased; `none` models the
exceptions its caller catches. -/
def encode_lnurl_uri (url : List Char) : Option (List Char) :=
  match convertbits (utf8Encode url) 8 5 true with
  | none => none
  | some data => some (pyUpper (bech32_encode lnurlHrp data))

/-- `NDEFHandler.extract_lnurl(data)`: extract the URI (Python's
`if not uri` treats the empty string like an absent one); when the
lower-cased URI contains `lnurl` or `lightning`, return its bech32
re-encoding, falling back to the URI itself if re-encoding fails;
otherwise return the URI verbatim. -/
def extract_lnurl (dec : List Nat → Except String (List NdefRec)) (data : List Nat) :
    Option (List Char) :=
  match extract_uri dec data with
  | none => none
  | some uri =>
    if uri = [] then none
    else if decide (lnurlHrp <:+: pyLower uri) || decide (litLightningWord <:+: pyLower uri) then
      match encode_lnurl_uri uri with
      | some ln => some ln
      | none => some uri
    else some uri

/-- A buffer that carries no NDEF-container TLV entry (tag `0x03`),
phrased over the TLV grammar of the data model: padding bytes (`0x00`),
a terminator (`0xFE`, after which nothing is scanned), well-formed
non-container entries, a lone trailing tag byte with no length byte, and
a final non-container entry whose declared length overruns the buffer. -/
inductive NoContainer : List Nat → Prop where
  | nil : NoContainer []
  | pad {rest} : NoContainer rest → NoContainer (0x00 :: rest)
  | term (rest) : NoContainer (0xfe :: rest)
  | lone (t) : t ≠ 0x00 → t ≠ 0xfe → NoContainer [t]
  | entry {t len v tail} : t ≠ 0x00 → t ≠ 0xfe → t ≠ 0x03 → v.length = len →
      NoContainer tail → NoContainer (t :: len :: (v ++ tail))
  | overrun {t len v} : t ≠ 0x00 → t ≠ 0xfe → t ≠ 0x03 → v.length < len →
      NoContainer (t :: len :: v)

/-! ### NFCReader (`src/nfc/reader.py`) -/

/-- Error text of `NFCWriteError("NDEF data too large (max 254 bytes)")`. -/
def errTooLarge : String := "NDEF data too large (max 254 bytes)"

/-- Error text of `NFCReadError` on an unreadable capability container. -/
def errCapability : String := "Failed to read capability container"

/-- The TLV construction inside `NFCReader._write_ntag_ndef`: reject
payloads over 254 bytes, emit `[0x03, len, payload..., 0xFE]` and
zero-pad to the 4-byte page boundary. -/
def frameTlv (ndefData : List Nat) : Except String (List Nat) :=
  if 254 < ndefData.length then Except.error errTooLarge
  else
    let tlv := 0x03 :: ndefData.length :: (ndefData ++ [0xfe])
    Except.ok (tlv ++ List.replicate ((4 - tlv.length % 4) % 4) 0)

/-- The page loop of `_write_ntag_ndef`: split the framed buffer into
4-byte blocks (a final short block is zero-filled).  `fuel` starts at the
buffer length, which bounds the trip count. -/
def chunkBlocks : Nat → List Nat → List (List Nat)
  | 0, _ => []
  | _ + 1, [] => []
  | fuel + 1, l => (l.take 4 ++ List.replicate (4 - (l.take 4).length) 0) :: chunkBlocks fuel (l.drop 4)

/-- `NFCReader._write_ntag_ndef(ndef_data)` as its page-write schedule:
the `(page, block)` pairs the loop issues to `ntag2xx_write_block`,
starting at page 4.  (A port failure aborts the loop early, so the pages
actually written are always a prefix of this schedule.) -/
def write_ntag_ndef (ndefData : List Nat) : Except String (List (Nat × List Nat)) :=
  match frameTlv ndefData with
  | Except.error e => Except.error e
  | Except.ok tlv =>
    Except.ok ((chunkBlocks tlv.length tlv).enum.map (fun p => (4 + p.1, p.2)))

/-- `NFCReader.clear_tag`'s single page write: the empty TLV
`[0x03, 0x00, 0xFE, 0x00]` to page 4. -/
def clear_tag_writes : List (Nat × List Nat) := [(4, [0x03, 0x00, 0xfe, 0x00])]

/-- The page loop of `NFCReader._read_ntag_ndef` over an abstract page
map `tag` (`none` models both a falsy block and a raised exception, which
the loop treats alike by breaking): starting at page 4, read and
accumulate blocks while `page < 135`, stopping after a block that
contains the `0xFE` terminator.  Returns the pages addressed and the
accumulated data.  `fuel` starts at `135 - page`, which bounds the trip
count. -/
def readGo (tag : Nat → Option (List Nat)) : Nat → Nat → List Nat × List Nat
  | 0, _ => ([], [])
  | fuel + 1, page =>
    if page < 135 then
      match tag page with
      | none => ([page], [])
      | some block =>
        if block = [] then ([page], [])
        else if block.contains 0xfe then ([page], block)
        else
          let r := readGo tag fuel (page + 1)
          (page :: r.1, block ++ r.2)
    else ([], [])

/-- `NFCReader._read_ntag_ndef()` over an abstract page map: read the
capability container at page 3 (failing if it is absent or shorter than
4 bytes), then run the page loop from page 4.  The first component is
the list of pages addressed, the second the Python return or raise. -/
def read_ntag_ndef (tag : Nat → Option (List Nat)) : List Nat × Except String (List Nat) :=
  match tag 3 with
  | none => ([3], Except.error errCapability)
  | some cc =>
    if cc.length < 4 then ([3], Except.error errCapability)
    else
      let r := readGo tag 131 4
      (3 :: r.1, Except.ok r.2)

/-! ### TagLoaderService (`src/services/tag_loader.py`) -/

/-- The fields of the LNbits `create_withdraw_link` response that
`load_tag` reads. -/
structure LinkData where
  linkId : Option (List Char)
  lnurl : Option (List Char)

/-- The result dictionary `load_tag` returns. -/
structure LoadResult where
  success : Bool
  linkId : Option (List Char)
  lnurl : List Char
  tagUid : List Nat
deriving DecidableEq

/-- Wrapper prefixed by `load_tag` when re-raising as `TagLoaderError`. -/
def errLoadWrap : String := "Failed to load tag: "

/-- Error text for a missing LNURL in the LNbits response. -/
def errNoLnurlFromApi : String := "No LNURL returned from LNbits"

/-- Error text for a timeout waiting for a tag. -/
def errNoTagDetected : String := "No NFC tag detected within timeout"

/-- Error text for a write call that returned a falsy value. -/
def errWriteFalse : String := "Failed to write NDEF to tag"

/-- `TagLoaderService.load_tag` over its collaborators: mint a withdraw
link, build the NDEF message, wait for a tag (deleting the link
best-effort on timeout), write, and verify by reading back and comparing
the extracted LNURL case-insensitively — the verification outcome is
only logged (here bound to `_verified`) and never affects the result,
which reports success as soon as the write call returned `True`. -/
def load_tag (dec : List Nat → Except String (List NdefRec))
    (createLink : Except String LinkData)
    (mkNdef : List Char → Except String (List Nat))
    (waitForTag : Option (List Nat))
    (writeNdef : List Nat → Except String Bool)
    (readNdef : Except String (List Nat))
    (deleteLink : Except String Bool) : Except String LoadResult :=
  match createLink with
  | Except.error e => Except.error (errLoadWrap ++ e)
  | Except.ok link =>
    match link.lnurl with
    | none => Except.error (errLoadWrap ++ errNoLnurlFromApi)
    | some lnurl =>
      if lnurl = [] then Except.error (errLoadWrap ++ errNoLnurlFromApi)
      else match mkNdef lnurl with
      | Except.error e => Except.error (errLoadWrap ++ e)
      | Except.ok ndefData =>
        match waitForTag with
        | none =>
          let _cleanup := deleteLink
          Except.error (errLoadWrap ++ errNoTagDetected)
        | some uid =>
          match writeNdef ndefData with
          | Except.error e => Except.error (errLoadWrap ++ e)
          | Except.ok success =>
            if success = false then Except.error (errLoadWrap ++ errWriteFalse)
            else
              let _verified : Bool :=
                match readNdef with
                | Except.error _ => false
                | Except.ok readData =>
                  match extract_lnurl dec readData with
                  | some readLnurl => pyLower readLnurl == pyLower lnurl
                  | none => false
              Except.ok { success := true, linkId := link.linkId, lnurl := lnurl, tagUid := uid }

/-! ### PaymentProcessorService (`src/services/payment_processor.py`) -/

/-- The hex digit alphabet of `bytes.hex()`. -/
def hexDigits : List Char := "0123456789abcdef".toList

/-- One byte of `bytes.hex()`. -/
def byteHex (b : Nat) : List Char :=
  [hexDigits.getD (b / 16 % 16) '0', hexDigits.getD (b % 16) '0']

/-- Python `bytes.hex()`. -/
def hexStr (uid : List Nat) : List Char := (uid.map byteHex).flatten

/-- The result dictionary `process_tag` returns (the keys the claims
examine; the free-form `lnurl_params` sub-dictionary is omitted). -/
structure ProcResult where
  success : Bool
  tagUid : List Char
  lnurl : Option (List Char)
  errorMsg : Option String
deriving DecidableEq

/-- Error text for a tag with no (or an empty) extracted LNURL. -/
def errNoLnurlOnTag : String := "No LNURL found on tag"

/-- Error text for a tag whose LNURL fails validation. -/
def errInvalidLnurl : String := "Invalid LNURL"

/-- The ledger of recently processed tags: `uid.hex()` to the
last-admitted timestamp, as an association list standing for the Python
dictionary `_processed_tags`. -/
def eraseLedgerKey (k : List Char) (m : List (List Char × ℚ)) : List (List Char × ℚ) :=
  m.filter (fun p => p.1 != k)

/-- The body of `PaymentProcessorService.process_tag` after the
rate-limit gate: read the tag (a read failure returns a failure record
without touching the ledger), extract the LNURL (`if not lnurl` treats
an empty one as absent), validate it, and only on full success admit the
uid into the ledger at `now` and sweep entries older than 3600 seconds. -/
def process_tag_body (dec : List Nat → Except String (List NdefRec))
    (state : List (List Char × ℚ)) (now : ℚ) (uidHex : List Char)
    (readNdef : Except String (List Nat)) :
    Option ProcResult × List (List Char × ℚ) :=
  match readNdef with
  | Except.error e =>
    (some { success := false, tagUid := uidHex, lnurl := none, errorMsg := some e }, state)
  | Except.ok ndefData =>
    match extract_lnurl dec ndefData with
    | none =>
      (some { success := false, tagUid := uidHex, lnurl := none,
              errorMsg := some errNoLnurlOnTag }, state)
    | some ln =>
      if ln = [] then
        (some { success := false, tagUid := uidHex, lnurl := none,
                errorMsg := some errNoLnurlOnTag }, state)
      else if !(LNURLHandler.validate ln) then
        (some { success := false, tagUid := uidHex, lnurl := some ln,
                errorMsg := some errInvalidLnurl }, state)
      else
        let state1 := (uidHex, now) :: eraseLedgerKey uidHex state
        let state2 := state1.filter (fun p => decide (now - p.2 ≤ 3600))
        (some { success := true, tagUid := uidHex, lnurl := some ln, errorMsg := none }, state2)

/-- `PaymentProcessorService.process_tag` over its collaborators: no tag
means no result; a tag whose identifier was admitted less than
`rate_limit_seconds` ago is skipped silently (`None`, ledger untouched —
and `run_daemon` fires its callback only on a non-`None` result);
otherwise the body runs. -/
def process_tag (dec : List Nat → Except String (List NdefRec))
    (state : List (List Char × ℚ)) (rateLimit now : ℚ)
    (waitForTag : Option (List Nat))
    (readNdef : Except String (List Nat)) :
    Option ProcResult × List (List Char × ℚ) :=
  match waitForTag with
  | none => (none, state)
  | some uid =>
    let uidHex := hexStr uid
    match state.lookup uidHex with
    | some last =>
      if now - last < rateLimit then (none, state)
      else process_tag_body dec state now uidHex readNdef
    | none => process_tag_body dec state now uidHex readNdef

/-! ### Theorems -/

set_option maxRecDepth 10000

deriving instance DecidableEq for Except

/-- A stand-in for the external ndeflib record decoder at call sites the
scanned claim never lets reach it. -/
def noRecordCodec : List Nat → Except String (List NdefRec) :=
  fun _ => Except.error "record decoding unsupported"

/-- The 49-character URL whose checksummed form exceeds the bech32
90-character ceiling. -/
def urlLong : List Char := "https://example.com/withdraw/01234567890123456789".toList

/-- C1. The claim's round-trip law `decode (encode u) = u` breaks on the
code for URLs longer than 48 UTF-8 bytes: `urlLong` (49 characters, valid
scheme and host) encodes to a well-formed 91-character string starting
with `LNURL`, but `bech32_decode` of the pypi `bech32` library rejects
any string longer than 90 characters, so `LNURLHandler.decode` raises
`LNURLError` instead of returning `urlLong`.  (The repository's own
`test_decode_bech32` decodes a 156-character LNURL and expects success,
so the library's ceiling contradicts the code's intent.) -/
theorem c1_roundtrip_fails_past_90_chars :
    (LNURLHandler.encode true urlLong).bind LNURLHandler.decode
        = Except.error (errDecodeWrap ++ errInvalidBech32) ∧
    (LNURLHandler.encode true urlLong).map (fun e => (litLNURL.isPrefixOf e, e.length))
        = Except.ok (true, 91) := by
  decide

/-- C2 (counterexample). The claim says framing succeeds for every
payload of length at most 255, but `_write_ntag_ndef` rejects payloads
longer than 254 bytes, so a 255-byte payload already fails. -/
theorem c2_frame_rejects_255 :
    frameTlv (List.replicate 255 0) = Except.error errTooLarge := by
  decide

/-- C2 (amended). TLV framing succeeds exactly for payloads of at most
254 bytes, and unframing the framed buffer returns the payload
byte-exactly; payloads longer than 254 bytes fail with the
too-large error. -/
theorem c2_tlv_roundtrip (p : List Nat) :
    (p.length ≤ 254 → ∃ buf, frameTlv p = Except.ok buf ∧ extract_ndef_tlv buf = some p) ∧
    (254 < p.length → frameTlv p = Except.error errTooLarge) := by
  constructor
  · intro h
    refine ⟨(0x03 :: p.length :: (p ++ [0xfe])) ++
        List.replicate ((4 - (0x03 :: p.length :: (p ++ [0xfe])).length % 4) % 4) 0, ?_, ?_⟩
    · unfold frameTlv
      rw [if_neg (by omega)]
    · unfold extract_ndef_tlv
      have hshape :
          (0x03 :: p.length :: (p ++ [0xfe])) ++
              List.replicate ((4 - (0x03 :: p.length :: (p ++ [0xfe])).length % 4) % 4) 0
            = 0x03 :: p.length ::
                (p ++ ([0xfe] ++ List.replicate
                  ((4 - (0x03 :: p.length :: (p ++ [0xfe])).length % 4) % 4) 0)) := by
        simp
      rw [hshape]
      simp only [List.length_cons]
      rw [extractGo]
      rw [if_neg (by norm_num), if_neg (by norm_num)]
      rw [if_pos]
      · rw [List.take_left]
      · exact ⟨rfl, by simp⟩
  · intro h
    unfold frameTlv
    rw [if_pos h]

/-- C2 (witness). The round-trip instantiated at the payload `[1, 2, 3]`. -/
theorem c2_tlv_roundtrip_witness :
    ∃ buf, frameTlv [1, 2, 3] = Except.ok buf ∧ extract_ndef_tlv buf = some [1, 2, 3] :=
  (c2_tlv_roundtrip [1, 2, 3]).1 (by decide)

/-- C5 (counterexample). On the buffer `[0x03, 5, 0x00]` — a container
entry whose declared length 5 runs past the buffer end — the claim
demands a `TruncatedEntry` framing failure, but the scan steps over the
entry and reports the ordinary absent result, which `parse_message`
surfaces as the generic no-container error rather than any
truncation-specific one. -/
theorem c5_truncated_entry_reports_absent :
    extract_ndef_tlv [0x03, 5, 0x00] = none ∧
    parse_message noRecordCodec [0x03, 5, 0x00] = Except.error errNoTlv := by
  decide

/-- C5 (amended). A container entry (tag `0x03`) whose declared length
runs past the buffer end is not returned and not reported as a
truncation failure: the scan advances `2 + length` bytes, which lands
past the end of the buffer, so unframing yields the absent result
`none`. -/
theorem c5_truncated_entry_skipped (len : Nat) (rest : List Nat) (h : rest.length < len) :
    extract_ndef_tlv (0x03 :: len :: rest) = none := by
  unfold extract_ndef_tlv
  simp only [List.length_cons]
  rw [extractGo]
  rw [if_neg (by norm_num), if_neg (by norm_num)]
  rw [if_neg (by omega)]
  rw [List.drop_eq_nil_of_le (by omega)]
  rw [extractGo]

/-- C5 (witness). The amended statement instantiated at the
counterexample buffer. -/
theorem c5_truncated_entry_skipped_witness :
    extract_ndef_tlv (0x03 :: 5 :: [0x00]) = none :=
  c5_truncated_entry_skipped 5 [0x00] (by decide)

/-- Unfolding lemma for one step of the TLV scan. -/
theorem extractGo_succ_cons (fuel t : Nat) (rest : List Nat) :
    extractGo (fuel + 1) (t :: rest) =
      if t = 0x00 then extractGo fuel rest
      else if t = 0xfe then none
      else match rest with
        | [] => none
        | len :: rest2 =>
          if t = 0x03 ∧ len ≤ rest2.length then some (rest2.take len)
          else extractGo fuel (rest2.drop len) := by
  rfl

/-- Helper for C7: on a buffer with no container entry the TLV scan
returns `none` whatever the fuel. -/
theorem noContainer_extractGo {d : List Nat} (h : NoContainer d) :
    ∀ fuel, extractGo fuel d = none := by
  induction h with
  | nil =>
    intro fuel
    cases fuel <;> rfl
  | pad _ ih =>
    intro fuel
    cases fuel with
    | zero => rfl
    | succ f =>
      rw [extractGo_succ_cons, if_pos rfl]
      exact ih f
  | term rest =>
    intro fuel
    cases fuel with
    | zero => rfl
    | succ f =>
      rw [extractGo_succ_cons, if_neg (by norm_num), if_pos rfl]
  | lone t h0 hfe =>
    intro fuel
    cases fuel with
    | zero => rfl
    | succ f =>
      rw [extractGo_succ_cons, if_neg h0, if_neg hfe]
  | @entry t len v tail h0 hfe h3 hlen _ ih =>
    intro fuel
    cases fuel with
    | zero => rfl
    | succ f =>
      rw [extractGo_succ_cons, if_neg h0, if_neg hfe]
      show (if t = 0x03 ∧ len ≤ (v ++ tail).length then some ((v ++ tail).take len)
        else extractGo f ((v ++ tail).drop len)) = none
      rw [if_neg (by simp [h3])]
      rw [← hlen, List.drop_left]
      exact ih f
  | @overrun t len v h0 hfe h3 hlt =>
    intro fuel
    cases fuel with
    | zero => rfl
    | succ f =>
      rw [extractGo_succ_cons, if_neg h0, if_neg hfe]
      show (if t = 0x03 ∧ len ≤ v.length then some (v.take len)
        else extractGo f (v.drop len)) = none
      rw [if_neg (by simp [h3])]
      rw [List.drop_eq_nil_of_le (by omega)]
      cases f <;> rfl

/-- C7. On any buffer carrying no NDEF-container TLV entry (tag `0x03`),
`extract_uri` returns the absent result `none` — the missing container
makes `parse_message` raise, `extract_uri` catches every exception, and
no error escapes — for any behaviour of the external record decoder. -/
theorem c7_no_container_is_absent (dec : List Nat → Except String (List NdefRec))
    (d : List Nat) (h : NoContainer d) : extract_uri dec d = none := by
  unfold extract_uri parse_message extract_ndef_tlv
  rw [noContainer_extractGo h]

/-- C7 (witness). The buffer `[0x00, 0x04, 0x01, 0xAA, 0xFE]` — padding,
a well-formed non-container entry, a terminator — has no container
entry, and `extract_uri` returns `none` on it. -/
theorem c7_no_container_is_absent_witness :
    extract_uri noRecordCodec [0x00, 0x04, 0x01, 0xaa, 0xfe] = none := by
  apply c7_no_container_is_absent
  have hshape : ([0x00, 0x04, 0x01, 0xaa, 0xfe] : List Nat)
      = 0x00 :: 0x04 :: 0x01 :: ([0xaa] ++ [0xfe]) := by decide
  rw [hshape]
  exact NoContainer.pad
    (NoContainer.entry (by decide) (by decide) (by decide) (by decide) (NoContainer.term []))

/-- Helper for C8: the read loop only addresses pages in `[page, 134]`. -/
theorem readGo_pages (tag : Nat → Option (List Nat)) :
    ∀ fuel page, ∀ p ∈ (readGo tag fuel page).1, page ≤ p ∧ p ≤ 134 := by
  intro fuel
  induction fuel with
  | zero =>
    intro page p hp
    simp [readGo] at hp
  | succ f ih =>
    intro page p hp
    rw [readGo] at hp
    by_cases hlt : page < 135
    · rw [if_pos hlt] at hp
      cases htag : tag page with
      | none =>
        simp only [htag] at hp
        simp at hp
        omega
      | some block =>
        simp only [htag] at hp
        by_cases hb : block = []
        · rw [if_pos hb] at hp
          simp at hp
          omega
        · rw [if_neg hb] at hp
          by_cases hfe : block.contains 0xfe
          · rw [if_pos hfe] at hp
            simp at hp
            omega
          · rw [if_neg hfe] at hp
            simp at hp
            rcases hp with hp | hp
            · omega
            · have := ih (page + 1) p hp
              omega
    · rw [if_neg hlt] at hp
      simp at hp
  
/-- Helper for C8: the number of 4-byte blocks is at most
`(length + 3) / 4`. -/
theorem chunkBlocks_length : ∀ fuel l, (chunkBlocks fuel l).length ≤ (l.length + 3) / 4 := by
  intro fuel
  induction fuel with
  | zero =>
    intro l
    simp [chunkBlocks]
  | succ f ih =>
    intro l
    cases l with
    | nil => simp [chunkBlocks]
    | cons x xs =>
      have hstep : chunkBlocks (f + 1) (x :: xs)
          = ((x :: xs).take 4 ++ List.replicate (4 - ((x :: xs).take 4).length) 0)
            :: chunkBlocks f ((x :: xs).drop 4) := rfl
      rw [hstep]
      simp only [List.length_cons]
      have := ih ((x :: xs).drop 4)
      simp only [List.length_drop, List.length_cons] at this
      omega

/-- C8 (counterexample). The claim says no read, write or clear ever
addresses a page below index 4, but the read operation starts by reading
the capability container at page 3: on a tag whose page 4 already holds
a terminator, the read addresses exactly pages 3 and 4. -/
theorem c8_read_addresses_page_three :
    (read_ntag_ndef
      (fun p => if p = 3 then some [0xe1, 0x10, 0x12, 0x00] else some [0x00, 0x00, 0x00, 0xfe])).1
      = [3, 4] := by
  decide

/-- C8 (amended). Page-addressing bounds of the three tag operations:
a read addresses page 3 (the capability container) and data pages in
`[4, 134]` only; a write addresses pages in `[4, 68]` only (the framed
payload is at most 260 bytes, i.e. 65 pages from page 4); a clear
addresses page 4 only.  No operation addresses a page below 3 or above
the family maximum 135. -/
theorem c8_page_bounds :
    (∀ tag : Nat → Option (List Nat), ∀ p ∈ (read_ntag_ndef tag).1,
      p = 3 ∨ (4 ≤ p ∧ p ≤ 134)) ∧
    (∀ d sch, write_ntag_ndef d = Except.ok sch → ∀ pb ∈ sch, 4 ≤ pb.1 ∧ pb.1 ≤ 68) ∧
    (∀ pb ∈ clear_tag_writes, pb.1 = 4) := by
  refine ⟨?_, ?_, ?_⟩
  · intro tag p hp
    unfold read_ntag_ndef at hp
    cases htag : tag 3 with
    | none =>
      simp only [htag] at hp
      simp at hp
      left
      exact hp
    | some cc =>
      simp only [htag] at hp
      by_cases hcc : cc.length < 4
      · rw [if_pos hcc] at hp
        simp at hp
        left
        exact hp
      · rw [if_neg hcc] at hp
        simp at hp
        rcases hp with hp | hp
        · left
          exact hp
        · right
          have := readGo_pages tag 131 4 p hp
          omega
  · intro d sch hs pb hpb
    unfold write_ntag_ndef at hs
    cases hf : frameTlv d with
    | error e =>
      rw [hf] at hs
      exact absurd hs (by simp)
    | ok tlv =>
      rw [hf] at hs
      simp only [Except.ok.injEq] at hs
      subst hs
      simp only [List.mem_map] at hpb
      obtain ⟨q, hq, rfl⟩ := hpb
      have hidx : q.1 < (chunkBlocks tlv.length tlv).length := by
        have := List.mem_enum_iff_getElem?.1 hq
        exact (List.getElem?_eq_some.1 this).1
      have hblocks := chunkBlocks_length tlv.length tlv
      have htlv : tlv.length ≤ 260 := by
        unfold frameTlv at hf
        by_cases hlen : 254 < d.length
        · rw [if_pos hlen] at hf
          exact absurd hf (by simp)
        · rw [if_neg hlen] at hf
          have heq := (Except.ok.inj hf).symm
          rw [heq]
          simp
          omega
      constructor
      · omega
      · simp only []
        omega
  · intro pb hpb
    simp only [clear_tag_writes, List.mem_singleton] at hpb
    subst hpb
    rfl

/-- C8 (witness). The amended bounds instantiated concretely: page 4 in
the trace of a read of the stub tag, the single page write of the
one-byte payload `[1]`, and the clear write. -/
theorem c8_page_bounds_witness :
    (4 = 3 ∨ (4 ≤ 4 ∧ 4 ≤ 134)) ∧ (4 ≤ 4 ∧ 4 ≤ 68) ∧ ((4, ([0x03, 0x00, 0xfe, 0x00] : List Nat)).1 = 4) :=
  ⟨c8_page_bounds.1
      (fun p => if p = 3 then some [0xe1, 0x10, 0x12, 0x00] else some [0x00, 0x00, 0x00, 0xfe])
      4 (by decide),
    c8_page_bounds.2.1 [1] [(4, [0x03, 0x01, 0x01, 0xfe])] (by decide)
      (4, [0x03, 0x01, 0x01, 0xfe]) (by decide),
    c8_page_bounds.2.2 (4, [0x03, 0x00, 0xfe, 0x00]) (by decide)⟩

/-- The string `"abcdef"`. -/
def strAbcdef : List Char := "abcdef".toList

/-- The string `"...abcdef"`. -/
def strDotsAbcdef : List Char := "...abcdef".toList

/-- C9 (counterexample). The claim says the result never exceeds
`max_len`, for every `max_len`; but at `max_len = 4` the halved budget
`(4 - 3) // 2` is `0`, and Python's slice `lnurl[-0:]` is the whole
string, so a six-character input yields the nine-character
`"...abcdef"`. -/
theorem c9_display_exceeds_max_at_4 :
    LNURLHandler.format_for_display strAbcdef 4 = strDotsAbcdef ∧
    ¬ ((strDotsAbcdef.length : Int) ≤ 4) := by
  decide

/-- C9 (amended). For `max_len ≥ 5` the claim holds: short strings are
returned unchanged, and longer ones are truncated symmetrically — the
first and last `(max_len - 3) // 2` characters joined by `"..."` — with
total length at most `max_len`.  (For `max_len ≤ 4` the `-0`/negative
slicing degenerates, as the counterexample shows.) -/
theorem c9_display_truncation (s : List Char) (m : Int) (hm : 5 ≤ m) :
    ((s.length : Int) ≤ m → LNURLHandler.format_for_display s m = s) ∧
    (m < (s.length : Int) →
      (((LNURLHandler.format_for_display s m).length : Int) ≤ m ∧
        LNURLHandler.format_for_display s m =
          s.take ((m - 3).fdiv 2).toNat ++ ellipsisMark ++
            s.drop (s.length - ((m - 3).fdiv 2).toNat))) := by
  constructor
  · intro h
    unfold LNURLHandler.format_for_display
    rw [if_pos h]
  · intro h
    have hed : (m - 3).fdiv 2 = (m - 3) / 2 := Int.fdiv_eq_ediv _ (by norm_num)
    have h1 : 1 ≤ (m - 3).fdiv 2 := by
      rw [hed]
      omega
    have h2 : 2 * ((m - 3).fdiv 2) ≤ m - 3 := by
      rw [hed]
      omega
    have hhalf : (((m - 3).fdiv 2).toNat : Int) = (m - 3).fdiv 2 := by
      omega
    have hlen : ((m - 3).fdiv 2).toNat ≤ s.length := by
      omega
    have hform : LNURLHandler.format_for_display s m =
        s.take ((m - 3).fdiv 2).toNat ++ ellipsisMark ++
          s.drop (s.length - ((m - 3).fdiv 2).toNat) := by
      unfold LNURLHandler.format_for_display
      rw [if_neg (by omega)]
      show pySliceTo s ((m - 3).fdiv 2) ++ ellipsisMark ++
          pySliceFrom s (-((m - 3).fdiv 2)) = _
      unfold pySliceTo pySliceFrom
      rw [if_pos (by omega), if_neg (by omega)]
      congr 2
      omega
    refine ⟨?_, hform⟩
    rw [hform]
    simp only [List.length_append, List.length_take, List.length_drop]
    have hell : ellipsisMark.length = 3 := by decide
    rw [hell]
    omega

/-- C9 (witness). The amended statement instantiated at a seven-character
string and `max_len = 5`: the result is the first and last single
characters joined by the ellipsis, five characters in total. -/
theorem c9_display_truncation_witness :
    (((LNURLHandler.format_for_display ('a' :: 'b' :: 'c' :: 'd' :: 'e' :: 'f' :: 'g' :: []) 5).length : Int) ≤ 5 ∧
      LNURLHandler.format_for_display ('a' :: 'b' :: 'c' :: 'd' :: 'e' :: 'f' :: 'g' :: []) 5 =
        ('a' :: 'b' :: 'c' :: 'd' :: 'e' :: 'f' :: 'g' :: []).take ((5 - 3 : Int).fdiv 2).toNat ++
          ellipsisMark ++
          ('a' :: 'b' :: 'c' :: 'd' :: 'e' :: 'f' :: 'g' :: []).drop
            (('a' :: 'b' :: 'c' :: 'd' :: 'e' :: 'f' :: 'g' :: []).length - ((5 - 3 : Int).fdiv 2).toNat)) :=
  (c9_display_truncation ('a' :: 'b' :: 'c' :: 'd' :: 'e' :: 'f' :: 'g' :: []) 5 (by norm_num)).2
    (by norm_num)

/-- Helper: every valid code point is below `0x110000`. -/
theorem char_toNat_lt (c : Char) : c.toNat < 1114112 := by
  have := c.valid
  rcases this with h | h
  · exact Nat.lt_trans (by exact_mod_cast h) (by norm_num)
  · exact_mod_cast h.2

/-- Helper for C10: UTF-8 encoding emits bytes. -/
theorem utf8EncodeChar_lt (c : Char) : ∀ b ∈ utf8EncodeChar c, b < 256 := by
  intro b hb
  unfold utf8EncodeChar at hb
  have h256 : (256 : Nat) = 2 ^ 8 := by norm_num
  have hsr6 := Nat.shiftRight_eq_div_pow c.toNat 6
  have hsr12 := Nat.shiftRight_eq_div_pow c.toNat 12
  have hsr18 := Nat.shiftRight_eq_div_pow c.toNat 18
  have hand3f : ∀ x : Nat, x &&& 0x3f < 256 := fun x =>
    Nat.lt_of_le_of_lt Nat.and_le_right (by norm_num)
  have hcont : ∀ x : Nat, 0x80 ||| (x &&& 0x3f) < 256 := fun x => by
    rw [h256]
    exact Nat.or_lt_two_pow (by norm_num) (by rw [← h256]; exact hand3f x)
  have hmax := char_toNat_lt c
  by_cases h1 : c.toNat < 0x80
  · rw [if_pos h1] at hb
    simp only [List.mem_cons, List.not_mem_nil, or_false] at hb
    omega
  · rw [if_neg h1] at hb
    by_cases h2 : c.toNat < 0x800
    · rw [if_pos h2] at hb
      simp only [List.mem_cons, List.not_mem_nil, or_false] at hb
      rcases hb with rfl | rfl
      · rw [h256]
        exact Nat.or_lt_two_pow (by norm_num) (by rw [← h256]; omega)
      · exact hcont _
    · rw [if_neg h2] at hb
      by_cases h3 : c.toNat < 0x10000
      · rw [if_pos h3] at hb
        simp only [List.mem_cons, List.not_mem_nil, or_false] at hb
        rcases hb with rfl | rfl | rfl
        · rw [h256]
          exact Nat.or_lt_two_pow (by norm_num) (by rw [← h256]; omega)
        · exact hcont _
        · exact hcont _
      · rw [if_neg h3] at hb
        simp only [List.mem_cons, List.not_mem_nil, or_false] at hb
        rcases hb with rfl | rfl | rfl | rfl
        · rw [h256]
          exact Nat.or_lt_two_pow (by norm_num) (by rw [← h256]; omega)
        · exact hcont _
        · exact hcont _
        · exact hcont _

/-- Helper for C10: every byte of an encoded string is below 256. -/
theorem utf8Encode_lt (s : List Char) : ∀ b ∈ utf8Encode s, b < 256 := by
  intro b hb
  unfold utf8Encode at hb
  simp only [List.mem_flatten, List.mem_map] at hb
  obtain ⟨l, ⟨c, _, rfl⟩, hbl⟩ := hb
  exact utf8EncodeChar_lt c b hbl

/-- Helper for C10: the fold of `convertbits` succeeds on byte input. -/
theorem convertbitsGo_byte_some (maxAcc maxv : Nat) :
    ∀ (data : List Nat) (acc bits : Nat) (ret : List Nat),
      (∀ v ∈ data, v < 256) →
      ∃ r, convertbitsGo 8 5 maxAcc maxv data acc bits ret = some r := by
  intro data
  induction data with
  | nil =>
    intro acc bits ret _
    exact ⟨_, rfl⟩
  | cons v rest ih =>
    intro acc bits ret hv
    rw [convertbitsGo]
    have hv0 : v >>> 8 = 0 := by
      rw [Nat.shiftRight_eq_div_pow]
      exact Nat.div_eq_of_lt (by have := hv v (by simp); omega)
    rw [if_neg (by omega)]
    exact ih _ _ _ (fun w hw => hv w (by simp [hw]))

/-- Helper for C10: `convertbits(_, 8, 5, True)` succeeds on byte input. -/
theorem convertbits_byte_some (data : List Nat) (h : ∀ v ∈ data, v < 256) :
    ∃ r, convertbits data 8 5 true = some r := by
  simp only [convertbits]
  obtain ⟨⟨ret, acc, bits⟩, hr⟩ := convertbitsGo_byte_some ((1 <<< (8 + 5 - 1)) - 1)
    ((1 <<< 5) - 1) data 0 0 [] h
  rw [hr]
  by_cases hb : bits ≠ 0
  · refine ⟨ret ++ [acc <<< (5 - bits) &&& (1 <<< 5 - 1)], ?_⟩
    simp only [if_pos hb, if_true]
  · refine ⟨ret, ?_⟩
    simp only [if_neg hb, if_true]

/-- Helper for C10: `NDEFHandler._encode_lnurl` always succeeds and its
result carries the upper-case `LNURL` marker. -/
theorem encode_lnurl_uri_some (u : List Char) :
    ∃ e, encode_lnurl_uri u = some e ∧ litLNURL.isPrefixOf e = true := by
  obtain ⟨r, hr⟩ := convertbits_byte_some (utf8Encode u) (utf8Encode_lt u)
  refine ⟨pyUpper (bech32_encode lnurlHrp r), ?_, ?_⟩
  · unfold encode_lnurl_uri
    rw [hr]
  · unfold bech32_encode pyUpper
    rw [List.map_append]
    rw [List.isPrefixOf_iff_prefix]
    have hhead : List.map Char.toUpper lnurlHrp = litLNURL := by decide
    rw [hhead]
    exact List.prefix_append _ _

/-- C10 (amended). Whenever the first URI record of an NDEF buffer is
extracted: if the URI's lower-cased form contains `lnurl` or `lightning`,
`extract_lnurl` returns the (always-successful) upper-case bech32
re-encoding of the URI under hrp `lnurl`, never the URI itself; if it
contains neither and is non-empty, `extract_lnurl` returns the URI
verbatim.  (An empty URI is treated as absent — the counterexample —
which is the only correction to the claim.) -/
theorem c10_extract_lnurl_reencodes (dec : List Nat → Except String (List NdefRec))
    (data : List Nat) (u : List Char) (hu : extract_uri dec data = some u) :
    ((decide (lnurlHrp <:+: pyLower u) || decide (litLightningWord <:+: pyLower u)) = true →
      ∃ e, encode_lnurl_uri u = some e ∧ extract_lnurl dec data = some e ∧
        litLNURL.isPrefixOf e = true) ∧
    ((decide (lnurlHrp <:+: pyLower u) || decide (litLightningWord <:+: pyLower u)) = false →
      u ≠ [] → extract_lnurl dec data = some u) := by
  constructor
  · intro hcont
    have hne : u ≠ [] := by
      intro hnil
      subst hnil
      revert hcont
      decide
    obtain ⟨e, he, hpre⟩ := encode_lnurl_uri_some u
    refine ⟨e, he, ?_, hpre⟩
    unfold extract_lnurl
    simp only [hu]
    rw [if_neg hne]
    rw [if_pos hcont]
    simp only [he]
  · intro hcont hne
    unfold extract_lnurl
    simp only [hu]
    rw [if_neg hne]
    rw [if_neg (by rw [hcont]; exact Bool.false_ne_true)]

/-- A record decoder producing a single URI record with the empty URI —
the behaviour of ndeflib's `message_decoder` on the one-record message
whose URI-record payload is the bare identifier byte `0x00`. -/
def emptyUriCodec : List Nat → Except String (List NdefRec) :=
  fun _ => Except.ok [NdefRec.uriRec []]

/-- C10 (counterexample). On a buffer whose first URI record carries the
empty URI — which contains neither `lnurl` nor `lightning`, so the claim
demands the URI verbatim (`some []`) — `extract_lnurl` instead returns
`none`, because Python's `if not uri` treats the empty string as absent. -/
theorem c10_empty_uri_not_verbatim :
    extract_uri emptyUriCodec [0x03, 0x01, 0x00, 0xfe] = some [] ∧
    extract_lnurl emptyUriCodec [0x03, 0x01, 0x00, 0xfe] = none := by
  decide

/-- A record decoder producing a single URI record carrying a withdraw
URL whose path contains `lnurl`. -/
def lnurlUriCodec : List Nat → Except String (List NdefRec) :=
  fun _ => Except.ok [NdefRec.uriRec ("https://x.com/lnurl/withdraw".toList)]

/-- C10 (witness). The amended statement instantiated at a concrete
buffer whose first URI record contains `lnurl`: the extraction returns
the bech32 re-encoding, marked `LNURL`. -/
theorem c10_extract_lnurl_reencodes_witness :
    ∃ e, encode_lnurl_uri ("https://x.com/lnurl/withdraw".toList) = some e ∧
      extract_lnurl lnurlUriCodec [0x03, 0x01, 0x00, 0xfe] = some e ∧
      litLNURL.isPrefixOf e = true :=
  (c10_extract_lnurl_reencodes lnurlUriCodec [0x03, 0x01, 0x00, 0xfe]
    ("https://x.com/lnurl/withdraw".toList) (by decide)).1 (by decide)

/-- C3. In the provisioning flow, once the write call reports success the
operation returns a success result, for every outcome of the
verification read (`readNdef`) and of the record decoder: the
verification step computes only the discarded `_verified` flag. -/
theorem c3_write_ack_is_authoritative
    (dec : List Nat → Except String (List NdefRec))
    (createLink : Except String LinkData)
    (mkNdef : List Char → Except String (List Nat))
    (waitForTag : Option (List Nat))
    (writeNdef : List Nat → Except String Bool)
    (readNdef : Except String (List Nat))
    (deleteLink : Except String Bool)
    (lid : Option (List Char)) (lnurl : List Char) (nd : List Nat) (uid : List Nat)
    (hc : createLink = Except.ok ⟨lid, some lnurl⟩)
    (hl : lnurl ≠ [])
    (hm : mkNdef lnurl = Except.ok nd)
    (hw : waitForTag = some uid)
    (hwr : writeNdef nd = Except.ok true) :
    load_tag dec createLink mkNdef waitForTag writeNdef readNdef deleteLink =
      Except.ok { success := true, linkId := lid, lnurl := lnurl, tagUid := uid } := by
  unfold load_tag
  simp only [hc, hm, hw, hwr]
  rw [if_neg hl]
  rw [if_neg (by simp)]

/-- The 32-character withdraw URL of the specification's scenario. -/
def urlDemo : List Char := "https://example.com/withdraw/123".toList

/-- C3 (witness). A concrete provisioning run in which the write call
succeeds but the verification read returns bytes carrying no LNURL at
all (simulated corruption): the result still reports success. -/
theorem c3_write_ack_is_authoritative_witness :
    load_tag noRecordCodec (Except.ok ⟨some ('i' :: 'd' :: []), some urlDemo⟩)
        (fun _ => Except.ok [0x01]) (some [0xde, 0xad]) (fun _ => Except.ok true)
        (Except.ok [0x09, 0x09]) (Except.ok true) =
      Except.ok { success := true, linkId := some ('i' :: 'd' :: []), lnurl := urlDemo,
                  tagUid := [0xde, 0xad] } :=
  c3_write_ack_is_authoritative noRecordCodec _ _ _ _ (Except.ok [0x09, 0x09]) (Except.ok true)
    (some ('i' :: 'd' :: [])) urlDemo [0x01] [0xde, 0xad] rfl (by decide) rfl rfl rfl

/-- Helper for C4: whatever the read, extraction and validation
outcomes, the post-gate body always produces a result record. -/
theorem process_tag_body_isSome (dec : List Nat → Except String (List NdefRec))
    (state : List (List Char × ℚ)) (now : ℚ) (uidHex : List Char)
    (readNdef : Except String (List Nat)) :
    (process_tag_body dec state now uidHex readNdef).1.isSome = true := by
  unfold process_tag_body
  cases hr : readNdef with
  | error e => simp only [hr]; rfl
  | ok nd =>
    simp only [hr]
    cases he : extract_lnurl dec nd with
    | none => simp only [he]; rfl
    | some ln =>
      simp only [he]
      by_cases hln : ln = []
      · rw [if_pos hln]
        rfl
      · rw [if_neg hln]
        by_cases hv : LNURLHandler.validate ln
        · rw [if_neg (by simp [hv])]
          rfl
        · rw [if_pos (by simp [hv])]
          rfl

/-- C4. For a tag identifier admitted into the ledger at time `T`
(`lookup` finds `T`), a re-presentation strictly inside the rate-limit
window is skipped — `process_tag` returns `none` and leaves the ledger
untouched, so `run_daemon` fires no callback — while a re-presentation
at `T + rate_limit_seconds` or later passes the gate and produces a
result record. -/
theorem c4_rate_limit_window (dec : List Nat → Except String (List NdefRec))
    (state : List (List Char × ℚ)) (rateLimit now T : ℚ) (uid : List Nat)
    (readNdef : Except String (List Nat))
    (hlook : state.lookup (hexStr uid) = some T) :
    (now - T < rateLimit →
      process_tag dec state rateLimit now (some uid) readNdef = (none, state)) ∧
    (rateLimit ≤ now - T →
      (process_tag dec state rateLimit now (some uid) readNdef).1.isSome = true) := by
  constructor
  · intro h
    unfold process_tag
    simp only [hlook]
    rw [if_pos h]
  · intro h
    unfold process_tag
    simp only [hlook]
    rw [if_neg (by exact not_lt.2 h)]
    exact process_tag_body_isSome dec state now (hexStr uid) readNdef

/-- C4 (witness). With the identifier of uid `[0x01]` admitted at time 0
and a two-second window: a re-presentation at time 1 is skipped with the
ledger unchanged, and one at time 2 produces a result record. -/
theorem c4_rate_limit_window_witness :
    process_tag noRecordCodec [(hexStr [0x01], (0 : ℚ))] 2 1 (some [0x01])
        (Except.error "read failed") = (none, [(hexStr [0x01], (0 : ℚ))]) ∧
    (process_tag noRecordCodec [(hexStr [0x01], (0 : ℚ))] 2 2 (some [0x01])
        (Except.error "read failed")).1.isSome = true :=
  ⟨(c4_rate_limit_window noRecordCodec [(hexStr [0x01], (0 : ℚ))] 2 1 0 [0x01]
      (Except.error "read failed") (by decide)).1 (by norm_num),
    (c4_rate_limit_window noRecordCodec [(hexStr [0x01], (0 : ℚ))] 2 2 0 [0x01]
      (Except.error "read failed") (by decide)).2 (by norm_num)⟩

/-- Helper for C6: a checked character prefix pins the first character. -/
theorem isPrefixOf_cons_head {a : Char} {as l : List Char}
    (h : (a :: as).isPrefixOf l = true) : ∃ t, l = a :: t := by
  cases l with
  | nil => simp [List.isPrefixOf] at h
  | cons b bs =>
    simp only [List.isPrefixOf, Bool.and_eq_true, beq_iff_eq] at h
    exact ⟨bs, by rw [h.1]⟩

/-- Helper for C6: an input whose stripped remainder starts
(case-insensitively) with `lnurl` cannot carry an `http(s)://` marker. -/
theorem lnurl_marked_not_http {s : List Char}
    (h : lnurlHrp.isPrefixOf (pyLower (stripLightning s)) = true) :
    (litHttp.isPrefixOf s || litHttps.isPrefixOf s) = false := by
  by_contra hne
  have hor : (litHttp.isPrefixOf s || litHttps.isPrefixOf s) = true := by
    revert hne
    cases litHttp.isPrefixOf s <;> cases litHttps.isPrefixOf s <;> simp
  have hs : ∃ t, s = 'h' :: t := by
    rcases Bool.or_eq_true_iff.mp hor with h1 | h1
    · rw [show litHttp = 'h' :: "ttp://".toList from by decide] at h1
      exact isPrefixOf_cons_head h1
    · rw [show litHttps = 'h' :: "ttps://".toList from by decide] at h1
      exact isPrefixOf_cons_head h1
  obtain ⟨t, rfl⟩ := hs
  have hlow : pyLower ('h' :: t) = 'h' :: pyLower t := rfl
  have hstrip : stripLightning ('h' :: t) = 'h' :: t := by
    unfold stripLightning
    rw [if_neg ?_]
    rw [hlow]
    rw [show litLightning = 'l' :: "ightning:".toList from by decide]
    simp [List.isPrefixOf]
  rw [hstrip, hlow] at h
  rw [show lnurlHrp = 'l' :: "nurl".toList from by decide] at h
  simp [List.isPrefixOf] at h

/-- C6. `LNURLHandler.decode` returns `http://`/`https://` inputs
unchanged; and on an input whose remainder (after stripping an optional
case-insensitive `lightning:` marker) begins case-insensitively with
`lnurl`, it fails with an `LNURLError` whenever the bech32 decode of the
lower-cased remainder rejects it (`none` — covering a wrong checksum and
every other malformation), whenever the human-readable part is not
exactly `lnurl`, and whenever the 5-to-8-bit byte conversion fails. -/
theorem c6_decode_passthrough_and_failures (s : List Char) :
    ((litHttp.isPrefixOf s || litHttps.isPrefixOf s) = true →
      LNURLHandler.decode s = Except.ok s) ∧
    (lnurlHrp.isPrefixOf (pyLower (stripLightning s)) = true →
      (bech32_decode (pyLower (stripLightning s)) = none →
        LNURLHandler.decode s = Except.error (errDecodeWrap ++ errInvalidBech32)) ∧
      (∀ hrp data, bech32_decode (pyLower (stripLightning s)) = some (hrp, data) →
        (hrp ≠ lnurlHrp → ∃ e, LNURLHandler.decode s = Except.error e) ∧
        (convertbits data 5 8 false = none → ∃ e, LNURLHandler.decode s = Except.error e))) := by
  constructor
  · intro h
    unfold LNURLHandler.decode
    rw [if_pos h]
  · intro hp
    have hhttp := lnurl_marked_not_http hp
    have hdec : LNURLHandler.decode s =
        match LNURLHandler.decodeBech32 (stripLightning s) with
        | Except.error e => Except.error (errDecodeWrap ++ e)
        | Except.ok url => Except.ok url := by
      unfold LNURLHandler.decode
      rw [if_neg (by simp [hhttp])]
      rw [if_pos hp]
    refine ⟨?_, ?_⟩
    · intro hb
      rw [hdec]
      unfold LNURLHandler.decodeBech32
      simp only [hb]
    · intro hrp data hb
      constructor
      · intro hhrp
        rw [hdec]
        unfold LNURLHandler.decodeBech32
        simp only [hb]
        rw [if_pos hhrp]
        exact ⟨_, rfl⟩
      · intro hconv
        rw [hdec]
        unfold LNURLHandler.decodeBech32
        simp only [hb]
        by_cases hhrp : hrp = lnurlHrp
        · rw [if_neg (by simp [hhrp])]
          rw [hconv]
          exact ⟨_, rfl⟩
        · rw [if_pos hhrp]
          exact ⟨_, rfl⟩

/-- A short `lnurl1…` string with all-zero data words, whose checksum is
invalid. -/
def badChecksumLnurl : List Char := "lnurl1qqqqqqqq".toList

/-- C6 (witness). The pass-through applied to a concrete `http://` URL,
and the failure branch applied to a concrete `lnurl1…` string whose
checksum does not verify. -/
theorem c6_decode_passthrough_and_failures_witness :
    LNURLHandler.decode ("http://x".toList) = Except.ok ("http://x".toList) ∧
    LNURLHandler.decode badChecksumLnurl =
      Except.error (errDecodeWrap ++ errInvalidBech32) :=
  ⟨(c6_decode_passthrough_and_failures ("http://x".toList)).1 (by decide),
    ((c6_decode_passthrough_and_failures badChecksumLnurl).2 (by decide)).1 (by decide)⟩
